import Mathlib

/-!
Verification development for the watercolor step-by-step generator
(`src/asdasd.py`).

The Streamlit front end builds a Python script as text
(`create_modified_script`), writes it to disk and executes it in a
subprocess.  The generated script is the eight-stage image pipeline:
for each stage it makes one `generate_content` call (prompt =
system prompt, a blank line, the stage prompt; reference images =
`[original]` for stage 1 and `[original, previous output]` afterwards),
saves the returned image under a fixed per-stage filename in the output
directory, and on any failure prints a message and calls `exit()`.

We embed both levels:
  * `create_modified_script` is embedded literally, as the concatenation
    of the fixed text chunks of the f-string with the interpolated
    parameters (`scChunk0` .. `scChunk12`).
  * the *behaviour* of the generated script is embedded as `runScript`:
    the external generation capability and the save operation are
    oracles (`StageBehavior`), the filesystem is an association list
    `Disk`, and the observable record of a run is a `ScriptResult`
    (per-stage log, trace of generation calls, final disk, process exit
    code).  Python's bare `exit()` terminates the process with status 0,
    which is what the model's `exitCode` records on the abort paths.
-/

/-- The eight user-editable stage prompts (`st.session_state.step_prompts`,
keys `step1` .. `step8`). -/
structure StepPrompts where
  step1 : String
  step2 : String
  step3 : String
  step4 : String
  step5 : String
  step6 : String
  step7 : String
  step8 : String
deriving DecidableEq

/-- One stage of the generated script: its 1-based position, the
stage-specific prompt interpolated into the script, and the fixed output
filename passed to `os.path.join(OUTPUT_DIR, ...)`. -/
structure StageDef where
  idx : Nat
  prompt : String
  filename : String
deriving DecidableEq

/-- The eight stages exactly as laid out in the straight-line body of the
generated script (steps 1-8, each with its hard-coded filename). -/
def stageDefs (sp : StepPrompts) : List StageDef :=
  [⟨1, sp.step1, "step1_light_sketch.jpg"⟩,
   ⟨2, sp.step2, "step2_first_wash.jpg"⟩,
   ⟨3, sp.step3, "step3_second_wash.jpg"⟩,
   ⟨4, sp.step4, "step4_medium_tones.jpg"⟩,
   ⟨5, sp.step5, "step5_shadows.jpg"⟩,
   ⟨6, sp.step6, "step6_details.jpg"⟩,
   ⟨7, sp.step7, "step7_darkest_values.jpg"⟩,
   ⟨8, sp.step8, "step8_finished_watercolor.jpg"⟩]

/-- Outcome of one `client.models.generate_content` call, as the pipeline
observes it: the call raises a transport-level exception, or returns a
response with no `inline_data` image part, or returns an image. -/
inductive GenOutcome (Img : Type)
  | raises
  | noImage
  | image (img : Img)
deriving DecidableEq

/-- Outcome of `generated_image.save(output_path)`.  PIL writes straight
to the final path, so a save that raises after the file was opened and
partly written leaves a truncated file behind (`failAfterWrite`), while a
save that raises before writing leaves the disk unchanged
(`failBeforeWrite`). -/
inductive SaveOutcome
  | ok
  | failAfterWrite
  | failBeforeWrite
deriving DecidableEq

/-- What the external world does at one stage attempt: the generation
outcome and, if an image comes back, the save outcome. -/
abbrev StageBehavior (Img : Type) := GenOutcome Img × SaveOutcome

/-- A file on disk: either a fully written image or the truncated remains
of a save that failed midway. -/
inductive FileState (Img : Type)
  | full (img : Img)
  | corrupt
deriving DecidableEq

/-- The filesystem visible to the script: an association list from paths
to file states. -/
abbrev Disk (Img : Type) := List (String × FileState Img)

/-- Write (create or overwrite) the file at path `p`. -/
def diskSet {Img : Type} : Disk Img → String → FileState Img → Disk Img
  | [], p, fs => [(p, fs)]
  | (q, g) :: rest, p, fs =>
      if q = p then (p, fs) :: rest else (q, g) :: diskSet rest p fs

/-- Read the file at path `p`. -/
def diskGet {Img : Type} : Disk Img → String → Option (FileState Img)
  | [], _ => none
  | (q, g) :: rest, p => if q = p then some g else diskGet rest p

/-- One generation call as recorded in the run trace: the stage index, the
complete prompt passed in `contents`, and the ordered reference images
appended after the prompt. -/
structure Event (Img : Type) where
  stage : Nat
  prompt : String
  refs : List Img
deriving DecidableEq

/-- Per-stage outcome in the run log: `produced` with the persisted path,
or `failed` (the script's "Could not generate ... Exiting." branch). -/
inductive Entry
  | produced (stage : Nat) (path : String)
  | failed (stage : Nat)
deriving DecidableEq

/-- Stage index of a log entry. -/
def entryStage : Entry → Nat
  | .produced i _ => i
  | .failed i => i

/-- Whether a log entry records a successful stage. -/
def isProduced : Entry → Bool
  | .produced _ _ => true
  | .failed _ => false

/-- Number of `Produced` entries in a log. -/
def producedCount (log : List Entry) : Nat :=
  (log.filter isProduced).length

/-- `call_gemini_with_context`, given the world's behaviour for this
attempt.  The whole body sits in one `try`, so a raised exception, a
response without image data, and a failing save all come back as the
`None, None` return; only a generation that returns an image *and* a
save that completes yields a result, with the full image on disk. -/
def callGemini {Img : Type} (beh : StageBehavior Img) (path : String)
    (disk : Disk Img) : Option Img × Disk Img :=
  match beh with
  | (.raises, _) => (none, disk)
  | (.noImage, _) => (none, disk)
  | (.image img, .ok) => (some img, diskSet disk path (.full img))
  | (.image _, .failAfterWrite) => (none, diskSet disk path .corrupt)
  | (.image _, .failBeforeWrite) => (none, disk)

/-- The image a stage attempt hands to the next stage, if any:
`some` exactly when generation returned an image and the save succeeded. -/
def stageRes {Img : Type} (beh : StageBehavior Img) : Option Img :=
  match beh with
  | (.image img, .ok) => some img
  | _ => none

/-- Observable run state threaded through the stages: the log of
per-stage outcomes, the trace of generation calls, and the disk. -/
structure ScriptState (Img : Type) where
  log : List Entry
  events : List (Event Img)
  disk : Disk Img
deriving DecidableEq

/-- The straight-line `__main__` body of the generated script, as a walk
over the stage list.  `prev` is the image produced by the previous stage
(`none` only before stage 1, whose call passes `[base_image]`); every
later call passes `[base_image, previous output]`.  The complete prompt
is `f"{system_prompt}\n\n{user_prompt}"`.  After a failed stage the
script prints and calls `exit()`, so the remaining stages are not
visited. -/
def runStages {Img : Type} (sys : String) (base : Img)
    (b : Nat → StageBehavior Img) (outDir : String) :
    List StageDef → Option Img → ScriptState Img → ScriptState Img
  | [], _, s => s
  | d :: ds, prev, s =>
      let refs : List Img := match prev with
        | none => [base]
        | some p => [base, p]
      let path := outDir ++ "/" ++ d.filename
      let ev : Event Img := ⟨d.idx, sys ++ "\n\n" ++ d.prompt, refs⟩
      match (callGemini (b d.idx) path s.disk).1 with
      | some img =>
          runStages sys base b outDir ds (some img)
            ⟨s.log ++ [.produced d.idx path], s.events ++ [ev],
             (callGemini (b d.idx) path s.disk).2⟩
      | none =>
          ⟨s.log ++ [.failed d.idx], s.events ++ [ev],
           (callGemini (b d.idx) path s.disk).2⟩

/-- How loading the original image went: `Image.open(IMAGE_PATH)`
succeeds, or the file is missing (`FileNotFoundError`, caught), or the
file exists but is not a decodable image (PIL raises
`UnidentifiedImageError`, which the `except FileNotFoundError` clause
does not catch). -/
inductive LoadResult (Img : Type)
  | ok (img : Img)
  | notFound
  | malformed
deriving DecidableEq

/-- Everything the caller can observe of one subprocess run of the
generated script. -/
structure ScriptResult (Img : Type) where
  log : List Entry
  events : List (Event Img)
  disk : Disk Img
  exitCode : Nat
deriving DecidableEq

/-- One run of the generated script.  A missing original image is caught
and answered with a bare `exit()`, i.e. process status 0; a malformed
image raises uncaught, i.e. status 1, before any stage runs.  The stage
walk itself ends with `exit()` (status 0) on the failure paths and falls
off the end (status 0) on success, so the exit code is 0 either way. -/
def runScript {Img : Type} (load : LoadResult Img) (sys : String)
    (sp : StepPrompts) (b : Nat → StageBehavior Img) (outDir : String) :
    ScriptResult Img :=
  match load with
  | .notFound => ⟨[], [], [], 0⟩
  | .malformed => ⟨[], [], [], 1⟩
  | .ok base =>
      let s := runStages sys base b outDir (stageDefs sp) none ⟨[], [], []⟩
      ⟨s.log, s.events, s.disk, 0⟩

/-- The Streamlit caller's completion check: `result.returncode == 0`
selects the `st.success("Watercolor generation completed!")` branch. -/
def reportedCompleted {Img : Type} (r : ScriptResult Img) : Bool :=
  r.exitCode == 0
/-- Fixed text of the generated script between interpolation points (0). -/
def scChunk0 : String :=
  "import os\nfrom PIL import Image\nfrom io import BytesIO\nfrom google import genai\nfrom google.genai import types\n\n# --- Configuration and Setup ---\nclient = genai.Client(api_key=\""

/-- Fixed text of the generated script between interpolation points (1). -/
def scChunk1 : String :=
  "\")\n\nIMAGE_PATH = \x27"

/-- Fixed text of the generated script between interpolation points (2). -/
def scChunk2 : String :=
  "\x27\nOUTPUT_DIR = \x27"

/-- Fixed text of the generated script between interpolation points (3). -/
def scChunk3 : String :=
  "\x27\n\nif not os.path.exists(OUTPUT_DIR):\n    os.makedirs(OUTPUT_DIR)\n    print(f\"Created directory: \x7bOUTPUT_DIR\x7d\")\n\ntry:\n    original_image = Image.open(IMAGE_PATH)\n    print(f\"Loaded original image from \x7bIMAGE_PATH\x7d\")\nexcept FileNotFoundError:\n    print(f\"Error: The image file at \x27\x7bIMAGE_PATH\x7d\x27 was not found.\")\n    exit()\n\nSYSTEM_PROMPT = \"\"\""

/-- Fixed text of the generated script between interpolation points (4). -/
def scChunk4 : String :=
  "\"\"\"\n\ndef call_gemini_with_context(client, system_prompt, user_prompt, images, output_path, step_name):\n    try:\n        print(f\"\\n--- Generating \x7bstep_name\x7d ---\")\n        complete_prompt = f\"\x7bsystem_prompt\x7d\\n\\n\x7buser_prompt\x7d\"\n        \n        response = client.models.generate_content(\n            model=\"gemini-2.0-flash-preview-image-generation\",\n            contents=[complete_prompt] + images,\n            config=types.GenerateContentConfig(\n                response_modalities=[\x27TEXT\x27, \x27IMAGE\x27]\n            )\n        )\n        \n        if response and response.candidates and response.candidates[0].content:\n            for part in response.candidates[0].content.parts:\n                if part.inline_data:\n                    generated_image = Image.open(BytesIO(part.inline_data.data))\n                    generated_image.save(output_path)\n                    print(f\"\x7bstep_name\x7d saved to: \x7boutput_path\x7d\")\n                    return output_path, generated_image\n        \n        print(f\"Could not find image data in the response for \x7boutput_path\x7d.\")\n        return None, None\n    except Exception as e:\n        print(f\"Error generating image for \x7bstep_name\x7d: \x7be\x7d\")\n        return None, None\n\nif __name__ == \"__main__\":\n    base_image = original_image\n    \n    # Step 1: Light Pencil Sketch\n    step1_prompt = \"\"\""

/-- Fixed text of the generated script between interpolation points (5). -/
def scChunk5 : String :=
  "\"\"\"\n    step1_path = os.path.join(OUTPUT_DIR, \"step1_light_sketch.jpg\")\n    step1_path, light_sketch_image = call_gemini_with_context(\n        client, SYSTEM_PROMPT, step1_prompt, [base_image], \n        step1_path, \"Step 1: Light Pencil Sketch\"\n    )\n    if not step1_path or not light_sketch_image:\n        print(\"Could not generate light sketch. Exiting.\")\n        exit()\n    \n    # Step 2: First Light Wash\n    step2_prompt = \"\"\""

/-- Fixed text of the generated script between interpolation points (6). -/
def scChunk6 : String :=
  "\"\"\"\n    step2_path = os.path.join(OUTPUT_DIR, \"step2_first_wash.jpg\")\n    step2_path, first_wash_image = call_gemini_with_context(\n        client, SYSTEM_PROMPT, step2_prompt, [base_image, light_sketch_image], \n        step2_path, \"Step 2: First Light Wash\"\n    )\n    if not step2_path or not first_wash_image:\n        print(\"Could not generate first wash. Exiting.\")\n        exit()\n    \n    # Step 3: Second Wash\n    step3_prompt = \"\"\""

/-- Fixed text of the generated script between interpolation points (7). -/
def scChunk7 : String :=
  "\"\"\"\n    step3_path = os.path.join(OUTPUT_DIR, \"step3_second_wash.jpg\")\n    step3_path, second_wash_image = call_gemini_with_context(\n        client, SYSTEM_PROMPT, step3_prompt, [base_image, first_wash_image], \n        step3_path, \"Step 3: Second Wash - Building Color\"\n    )\n    if not step3_path or not second_wash_image:\n        print(\"Could not generate second wash. Exiting.\")\n        exit()\n    \n    # Step 4: Medium Tones\n    step4_prompt = \"\"\""

/-- Fixed text of the generated script between interpolation points (8). -/
def scChunk8 : String :=
  "\"\"\"\n    step4_path = os.path.join(OUTPUT_DIR, \"step4_medium_tones.jpg\")\n    step4_path, medium_tones_image = call_gemini_with_context(\n        client, SYSTEM_PROMPT, step4_prompt, [base_image, second_wash_image], \n        step4_path, \"Step 4: Medium Tones\"\n    )\n    if not step4_path or not medium_tones_image:\n        print(\"Could not generate medium tones. Exiting.\")\n        exit()\n    \n    # Step 5: Shadows\n    step5_prompt = \"\"\""

/-- Fixed text of the generated script between interpolation points (9). -/
def scChunk9 : String :=
  "\"\"\"\n    step5_path = os.path.join(OUTPUT_DIR, \"step5_shadows.jpg\")\n    step5_path, shadows_image = call_gemini_with_context(\n        client, SYSTEM_PROMPT, step5_prompt, [base_image, medium_tones_image], \n        step5_path, \"Step 5: Developing Shadows\"\n    )\n    if not step5_path or not shadows_image:\n        print(\"Could not generate shadows. Exiting.\")\n        exit()\n    \n    # Step 6: Details\n    step6_prompt = \"\"\""

/-- Fixed text of the generated script between interpolation points (10). -/
def scChunk10 : String :=
  "\"\"\"\n    step6_path = os.path.join(OUTPUT_DIR, \"step6_details.jpg\")\n    step6_path, details_image = call_gemini_with_context(\n        client, SYSTEM_PROMPT, step6_prompt, [base_image, shadows_image], \n        step6_path, \"Step 6: Adding Details and Texture\"\n    )\n    if not step6_path or not details_image:\n        print(\"Could not generate details. Exiting.\")\n        exit()\n    \n    # Step 7: Darkest Values\n    step7_prompt = \"\"\""

/-- Fixed text of the generated script between interpolation points (11). -/
def scChunk11 : String :=
  "\"\"\"\n    step7_path = os.path.join(OUTPUT_DIR, \"step7_darkest_values.jpg\")\n    step7_path, darkest_values_image = call_gemini_with_context(\n        client, SYSTEM_PROMPT, step7_prompt, [base_image, details_image], \n        step7_path, \"Step 7: Deepest Darks\"\n    )\n    if not step7_path or not darkest_values_image:\n        print(\"Could not generate darkest values. Exiting.\")\n        exit()\n    \n    # Step 8: Finished Painting\n    step8_prompt = \"\"\""

/-- Fixed text of the generated script between interpolation points (12). -/
def scChunk12 : String :=
  "\"\"\"\n    step8_path = os.path.join(OUTPUT_DIR, \"step8_finished_watercolor.jpg\")\n    step8_path, finished_image = call_gemini_with_context(\n        client, SYSTEM_PROMPT, step8_prompt, [base_image, darkest_values_image], \n        step8_path, \"Step 8: Finished Watercolor Painting\"\n    )\n    if not step8_path or not finished_image:\n        print(\"Could not generate finished watercolor painting. Exiting.\")\n        exit()\n    \n    print(f\"\\nWatercolor workflow completed. Check the \x27\x7bOUTPUT_DIR\x7d\x27 folder for all generated watercolor painting steps.\")\n"

/-- `create_modified_script(api_key, image_path, system_prompt,
step_prompts, output_dir)`: the generated script's full text, i.e. the
f-string's fixed chunks with the five caller-supplied pieces of text
interpolated verbatim at their twelve interpolation points. -/
def create_modified_script (api_key : String) (image_path : String)
    (system_prompt : String) (step_prompts : StepPrompts)
    (output_dir : String) : String :=
  scChunk0 ++ api_key ++ scChunk1 ++ image_path ++ scChunk2 ++ output_dir
    ++ scChunk3 ++ system_prompt ++ scChunk4 ++ step_prompts.step1
    ++ scChunk5 ++ step_prompts.step2 ++ scChunk6 ++ step_prompts.step3
    ++ scChunk7 ++ step_prompts.step4 ++ scChunk8 ++ step_prompts.step5
    ++ scChunk9 ++ step_prompts.step6 ++ scChunk10 ++ step_prompts.step7
    ++ scChunk11 ++ step_prompts.step8 ++ scChunk12

/-- A side effect of the Streamlit generate-button handler that touches
the filesystem or launches the subprocess. -/
inductive MainEffect
  | writeFile (path : String) (content : String)
  | execScript (path : String)
deriving DecidableEq

/-- The generate-button branch of `main()`, as the ordered effects it
performs inside the temporary directory: save the uploaded image, write
the generated script, then run it with `subprocess.run`. -/
def mainGenerateEffects (api_key : String) (uploaded : String)
    (system_prompt : String) (sp : StepPrompts) (temp_dir : String) :
    List MainEffect :=
  let image_path := temp_dir ++ "/input_image.jpg"
  let output_dir := temp_dir ++ "/output"
  let script_path := temp_dir ++ "/watercolor_script.py"
  [.writeFile image_path uploaded,
   .writeFile script_path
     (create_modified_script api_key image_path system_prompt sp output_dir),
   .execScript script_path]

/-! ### Basic lemmas about the disk model and one stage attempt -/

theorem diskGet_diskSet_self {Img : Type} (d : Disk Img) (p : String)
    (fs : FileState Img) : diskGet (diskSet d p fs) p = some fs := by
  induction d with
  | nil => simp [diskSet, diskGet]
  | cons qe rest ih =>
    obtain ⟨q, g⟩ := qe
    by_cases h : q = p
    · simp [diskSet, diskGet, h]
    · simp [diskSet, diskGet, h, ih]

theorem diskGet_diskSet_ne {Img : Type} (d : Disk Img) (p q : String)
    (fs : FileState Img) (h : p ≠ q) :
    diskGet (diskSet d q fs) p = diskGet d p := by
  induction d with
  | nil => simp [diskSet, diskGet, Ne.symm h]
  | cons qe rest ih =>
    obtain ⟨q', g⟩ := qe
    by_cases h' : q' = q
    · subst h'
      simp [diskSet, diskGet, Ne.symm h]
    · simp [diskSet, diskGet, h', ih]

theorem callGemini_fst {Img : Type} (beh : StageBehavior Img)
    (path : String) (disk : Disk Img) :
    (callGemini beh path disk).1 = stageRes beh := by
  rcases beh with ⟨g, sv⟩
  cases g <;> cases sv <;> rfl

theorem callGemini_snd_cases {Img : Type} (beh : StageBehavior Img)
    (path : String) (disk : Disk Img) :
    (callGemini beh path disk).2 = disk ∨
      (∃ img, stageRes beh = some img ∧
        (callGemini beh path disk).2 = diskSet disk path (.full img)) ∨
      (stageRes beh = none ∧
        (callGemini beh path disk).2 = diskSet disk path .corrupt) := by
  rcases beh with ⟨g, sv⟩
  cases g <;> cases sv <;> simp [callGemini, stageRes]

theorem callGemini_snd_get_ne {Img : Type} (beh : StageBehavior Img)
    (path : String) (disk : Disk Img) (p : String) (h : p ≠ path) :
    diskGet (callGemini beh path disk).2 p = diskGet disk p := by
  rcases beh with ⟨g, sv⟩
  cases g <;> cases sv <;> simp [callGemini, diskGet_diskSet_ne _ _ _ _ h]

theorem string_append_cancel_left (s a b : String) (h : s ++ a = s ++ b) :
    a = b := by
  have hd : (s ++ a).data = (s ++ b).data := congrArg String.data h
  rw [String.data_append, String.data_append] at hd
  exact String.ext (List.append_cancel_left hd)

/-! ### A state-free description of the stage walk

`runDelta` recomputes exactly the log entries, generation calls and disk
effect that `runStages` adds on top of its accumulated state; it is the
induction-friendly form of the same recursion. -/

def runDelta {Img : Type} (sys : String) (base : Img)
    (b : Nat → StageBehavior Img) (outDir : String) :
    List StageDef → Option Img → Disk Img → ScriptState Img
  | [], _, dk => ⟨[], [], dk⟩
  | d :: ds, prev, dk =>
      let refs : List Img := match prev with
        | none => [base]
        | some p => [base, p]
      let path := outDir ++ "/" ++ d.filename
      let ev : Event Img := ⟨d.idx, sys ++ "\n\n" ++ d.prompt, refs⟩
      match stageRes (b d.idx) with
      | some img =>
          let rest := runDelta sys base b outDir ds (some img)
            (callGemini (b d.idx) path dk).2
          ⟨.produced d.idx path :: rest.log, ev :: rest.events, rest.disk⟩
      | none =>
          ⟨[.failed d.idx], [ev], (callGemini (b d.idx) path dk).2⟩

theorem runStages_eq_delta {Img : Type} (sys : String) (base : Img)
    (b : Nat → StageBehavior Img) (outDir : String) (ds : List StageDef) :
    ∀ (prev : Option Img) (s : ScriptState Img),
      runStages sys base b outDir ds prev s =
        ⟨s.log ++ (runDelta sys base b outDir ds prev s.disk).log,
         s.events ++ (runDelta sys base b outDir ds prev s.disk).events,
         (runDelta sys base b outDir ds prev s.disk).disk⟩ := by
  induction ds with
  | nil => intro prev s; simp [runStages, runDelta]
  | cons d ds ih =>
    intro prev s
    simp only [runStages, runDelta, callGemini_fst]
    cases hg : stageRes (b d.idx) with
    | none => simp
    | some img => simp [ih]

/-- The run of the generated script on a readable original image, with
the two pieces of the walk exposed through `runDelta`. -/
theorem runScript_ok_eq {Img : Type} (base : Img) (sys : String)
    (sp : StepPrompts) (b : Nat → StageBehavior Img) (outDir : String) :
    runScript (.ok base) sys sp b outDir =
      ⟨(runDelta sys base b outDir (stageDefs sp) none []).log,
       (runDelta sys base b outDir (stageDefs sp) none []).events,
       (runDelta sys base b outDir (stageDefs sp) none []).disk, 0⟩ := by
  simp [runScript, runStages_eq_delta]

theorem mem_range'_iff (m s n : Nat) :
    m ∈ List.range' s n ↔ s ≤ m ∧ m < s + n := by
  rw [List.mem_range']
  constructor
  · rintro ⟨i, hi, rfl⟩
    omega
  · intro h
    exact ⟨m - s, by omega, by omega⟩

/-! ### Stage walk invariants -/

theorem runDelta_log_stages {Img : Type} (sys : String) (base : Img)
    (b : Nat → StageBehavior Img) (outDir : String) (ds : List StageDef) :
    ∀ (prev : Option Img) (dk : Disk Img) (e : Entry),
      e ∈ (runDelta sys base b outDir ds prev dk).log →
      entryStage e ∈ ds.map (·.idx) := by
  induction ds with
  | nil => intro prev dk e he; simp [runDelta] at he
  | cons d ds ih =>
    intro prev dk e he
    cases hg : stageRes (b d.idx) with
    | none =>
      simp [runDelta, hg] at he
      simp [he, entryStage]
    | some img =>
      simp only [runDelta, hg] at he
      rcases List.mem_cons.mp he with h | h
      · simp [h, entryStage]
      · simpa using Or.inr (ih _ _ _ h)

theorem runDelta_events_shape {Img : Type} (sys : String) (base : Img)
    (b : Nat → StageBehavior Img) (outDir : String) (ds : List StageDef) :
    ∀ (prev : Option Img) (dk : Disk Img) (ev : Event Img),
      ev ∈ (runDelta sys base b outDir ds prev dk).events →
      ∃ d' ∈ ds, ev.stage = d'.idx ∧
        ev.prompt = sys ++ "\n\n" ++ d'.prompt := by
  induction ds with
  | nil => intro prev dk ev he; simp [runDelta] at he
  | cons d ds ih =>
    intro prev dk ev he
    cases hg : stageRes (b d.idx) with
    | none =>
      simp [runDelta, hg] at he
      exact ⟨d, by simp, by simp [he]⟩
    | some img =>
      simp only [runDelta, hg] at he
      rcases List.mem_cons.mp he with h | h
      · exact ⟨d, by simp, by simp [h]⟩
      · obtain ⟨d', hd', h1, h2⟩ := ih _ _ _ h
        exact ⟨d', by simp [hd'], h1, h2⟩

theorem runDelta_events_stages {Img : Type} (sys : String) (base : Img)
    (b : Nat → StageBehavior Img) (outDir : String) (ds : List StageDef)
    (prev : Option Img) (dk : Disk Img) (ev : Event Img)
    (he : ev ∈ (runDelta sys base b outDir ds prev dk).events) :
    ev.stage ∈ ds.map (·.idx) := by
  obtain ⟨d', hd', h1, _⟩ := runDelta_events_shape sys base b outDir ds prev dk ev he
  exact List.mem_map.mpr ⟨d', hd', h1.symm⟩

theorem runDelta_fail_bound {Img : Type} (sys : String) (base : Img)
    (b : Nat → StageBehavior Img) (outDir : String) (ds : List StageDef) :
    ∀ (j : Nat) (prev : Option Img) (dk : Disk Img) (k : Nat),
      ds.map (·.idx) = List.range' j ds.length →
      Entry.failed k ∈ (runDelta sys base b outDir ds prev dk).log →
      (∀ e ∈ (runDelta sys base b outDir ds prev dk).log, entryStage e ≤ k) ∧
      (∀ ev ∈ (runDelta sys base b outDir ds prev dk).events, ev.stage ≤ k) := by
  induction ds with
  | nil => intro j prev dk k _ hk; simp [runDelta] at hk
  | cons d ds ih =>
    intro j prev dk k hr hk
    have hd : d.idx = j ∧ ds.map (·.idx) = List.range' (j + 1) ds.length := by
      rw [List.length_cons, List.range'_succ] at hr
      simpa using hr
    cases hg : stageRes (b d.idx) with
    | none =>
      simp [runDelta, hg] at hk ⊢
      simp [hk, entryStage]
    | some img =>
      simp only [runDelta, hg] at hk ⊢
      have hk' : Entry.failed k ∈
          (runDelta sys base b outDir ds (some img)
            (callGemini (b d.idx) (outDir ++ "/" ++ d.filename) dk).2).log := by
        rcases List.mem_cons.mp hk with h | h
        · exact absurd h (by simp)
        · exact h
      have hjk : j + 1 ≤ k := by
        have := runDelta_log_stages sys base b outDir ds (some img)
          (callGemini (b d.idx) (outDir ++ "/" ++ d.filename) dk).2 _ hk'
        rw [hd.2] at this
        simpa [entryStage] using ((mem_range'_iff _ _ _).mp this).1
      obtain ⟨h1, h2⟩ := ih (j + 1) (some img) _ k hd.2 hk'
      refine ⟨?_, ?_⟩
      · intro e he
        rcases List.mem_cons.mp he with h | h
        · simp [h, entryStage]; omega
        · exact h1 e h
      · intro ev hev
        rcases List.mem_cons.mp hev with h | h
        · simp [h]; omega
        · exact h2 ev h

theorem runDelta_fail_in {Img : Type} (sys : String) (base : Img)
    (b : Nat → StageBehavior Img) (outDir : String) (ds : List StageDef) :
    ∀ (prev : Option Img) (dk : Disk Img) (k : Nat),
      stageRes (b k) = none →
      (∃ ev ∈ (runDelta sys base b outDir ds prev dk).events, ev.stage = k) →
      Entry.failed k ∈ (runDelta sys base b outDir ds prev dk).log := by
  induction ds with
  | nil => intro prev dk k _ h; simp [runDelta] at h
  | cons d ds ih =>
    intro prev dk k hres h
    obtain ⟨ev, hev, hst⟩ := h
    cases hg : stageRes (b d.idx) with
    | none =>
      simp [runDelta, hg] at hev ⊢
      have : ev.stage = d.idx := by simp [hev]
      omega
    | some img =>
      simp only [runDelta, hg] at hev ⊢
      rcases List.mem_cons.mp hev with h | h
      · exfalso
        have : d.idx = k := by
          have := congrArg Event.stage h
          simpa [hst] using this.symm
        rw [this] at hg
        simp [hres] at hg
      · exact List.mem_cons.mpr (Or.inr (ih (some img) _ k hres ⟨ev, h, hst⟩))

theorem callGemini_snd_of_some {Img : Type} (beh : StageBehavior Img)
    (path : String) (disk : Disk Img) (img : Img)
    (h : stageRes beh = some img) :
    (callGemini beh path disk).2 = diskSet disk path (.full img) := by
  rcases beh with ⟨g, sv⟩
  cases g <;> cases sv <;> simp_all [callGemini, stageRes]

theorem runDelta_range {Img : Type} (sys : String) (base : Img)
    (b : Nat → StageBehavior Img) (outDir : String) (ds : List StageDef) :
    ∀ (j : Nat) (prev : Option Img) (dk : Disk Img),
      ds.map (·.idx) = List.range' j ds.length →
      ∃ m ≤ ds.length,
        (runDelta sys base b outDir ds prev dk).events.map (·.stage) =
          List.range' j m ∧
        (runDelta sys base b outDir ds prev dk).log.map entryStage =
          List.range' j m := by
  induction ds with
  | nil => intro j prev dk _; exact ⟨0, by simp, by simp [runDelta]⟩
  | cons d ds ih =>
    intro j prev dk hr
    have hd : d.idx = j ∧ ds.map (·.idx) = List.range' (j + 1) ds.length := by
      rw [List.length_cons, List.range'_succ] at hr
      simpa using hr
    obtain ⟨hdj, hds⟩ := hd
    subst hdj
    cases hg : stageRes (b d.idx) with
    | none =>
      refine ⟨1, by simp, ?_⟩
      simp only [runDelta, hg]
      simp [List.range'_succ, entryStage]
    | some img =>
      obtain ⟨m, hm, h1, h2⟩ := ih (d.idx + 1) (some img)
        (callGemini (b d.idx) (outDir ++ "/" ++ d.filename) dk).2 hds
      refine ⟨m + 1, by simpa using hm, ?_, ?_⟩
      · simp only [runDelta, hg]
        simp [List.range'_succ, h1]
      · simp only [runDelta, hg]
        simp [List.range'_succ, h2, entryStage]

theorem runDelta_disk_untouched {Img : Type} (sys : String) (base : Img)
    (b : Nat → StageBehavior Img) (outDir : String) (ds : List StageDef) :
    ∀ (prev : Option Img) (dk : Disk Img) (p : String),
      (∀ d' ∈ ds, p ≠ outDir ++ "/" ++ d'.filename) →
      diskGet (runDelta sys base b outDir ds prev dk).disk p = diskGet dk p := by
  induction ds with
  | nil => intro prev dk p _; simp [runDelta]
  | cons d ds ih =>
    intro prev dk p hp
    have hpd : p ≠ outDir ++ "/" ++ d.filename := hp d (by simp)
    cases hg : stageRes (b d.idx) with
    | none =>
      simp only [runDelta, hg]
      exact callGemini_snd_get_ne _ _ _ _ hpd
    | some img =>
      simp only [runDelta, hg]
      rw [ih (some img) _ p fun d' hd' => hp d' (by simp [hd'])]
      exact callGemini_snd_get_ne _ _ _ _ hpd

theorem runDelta_fail_disk {Img : Type} (sys : String) (base : Img)
    (b : Nat → StageBehavior Img) (outDir : String) (ds : List StageDef) :
    ∀ (j : Nat) (prev : Option Img) (dk : Disk Img) (k : Nat),
      ds.map (·.idx) = List.range' j ds.length →
      (ds.map (fun x => outDir ++ "/" ++ x.filename)).Nodup →
      Entry.failed k ∈ (runDelta sys base b outDir ds prev dk).log →
      ∀ d' ∈ ds, k < d'.idx →
        diskGet (runDelta sys base b outDir ds prev dk).disk
            (outDir ++ "/" ++ d'.filename) =
          diskGet dk (outDir ++ "/" ++ d'.filename) := by
  induction ds with
  | nil => intro j prev dk k _ _ hk; simp [runDelta] at hk
  | cons d ds ih =>
    intro j prev dk k hr hnd hk d' hd' hkd
    have hd : d.idx = j ∧ ds.map (·.idx) = List.range' (j + 1) ds.length := by
      rw [List.length_cons, List.range'_succ] at hr
      simpa using hr
    have hnd' : (outDir ++ "/" ++ d.filename) ∉
        ds.map (fun x => outDir ++ "/" ++ x.filename) ∧
        (ds.map (fun x => outDir ++ "/" ++ x.filename)).Nodup := by
      simpa using hnd
    cases hg : stageRes (b d.idx) with
    | none =>
      simp only [runDelta, hg] at hk ⊢
      have hkj : k = d.idx := by
        have : Entry.failed k = Entry.failed d.idx := by simpa using hk
        simpa using this
      have hne : d' ≠ d := by
        intro h
        rw [h] at hkd
        omega
      have hmem : d' ∈ ds := by
        rcases List.mem_cons.mp hd' with h | h
        · exact absurd h hne
        · exact h
      have hpp : (outDir ++ "/" ++ d'.filename) ≠ (outDir ++ "/" ++ d.filename) := by
        intro h
        exact hnd'.1 (h ▸ List.mem_map.mpr ⟨d', hmem, rfl⟩)
      exact callGemini_snd_get_ne _ _ _ _ hpp
    | some img =>
      simp only [runDelta, hg] at hk ⊢
      have hk' : Entry.failed k ∈
          (runDelta sys base b outDir ds (some img)
            (callGemini (b d.idx) (outDir ++ "/" ++ d.filename) dk).2).log := by
        rcases List.mem_cons.mp hk with h | h
        · exact absurd h (by simp)
        · exact h
      have hjk : j + 1 ≤ k := by
        have := runDelta_log_stages sys base b outDir ds (some img)
          (callGemini (b d.idx) (outDir ++ "/" ++ d.filename) dk).2 _ hk'
        rw [hd.2] at this
        simpa [entryStage] using ((mem_range'_iff _ _ _).mp this).1
      have hne : d' ≠ d := by
        intro h
        rw [h] at hkd
        omega
      have hmem : d' ∈ ds := by
        rcases List.mem_cons.mp hd' with h | h
        · exact absurd h hne
        · exact h
      have hpp : (outDir ++ "/" ++ d'.filename) ≠ (outDir ++ "/" ++ d.filename) := by
        intro h
        exact hnd'.1 (h ▸ List.mem_map.mpr ⟨d', hmem, rfl⟩)
      rw [ih (j + 1) (some img) _ k hd.2 hnd'.2 hk' d' hmem hkd]
      exact callGemini_snd_get_ne _ _ _ _ hpp

theorem runDelta_produced {Img : Type} (sys : String) (base : Img)
    (b : Nat → StageBehavior Img) (outDir : String) (ds : List StageDef) :
    ∀ (prev : Option Img) (dk : Disk Img),
      (ds.map (fun x => outDir ++ "/" ++ x.filename)).Nodup →
      ∀ (i : Nat) (p : String),
        Entry.produced i p ∈ (runDelta sys base b outDir ds prev dk).log →
        ∃ d' ∈ ds, d'.idx = i ∧ p = outDir ++ "/" ++ d'.filename ∧
          ∃ img, stageRes (b i) = some img ∧
            diskGet (runDelta sys base b outDir ds prev dk).disk p =
              some (.full img) := by
  induction ds with
  | nil => intro prev dk _ i p hp; simp [runDelta] at hp
  | cons d ds ih =>
    intro prev dk hnd i p hp
    have hnd' : (outDir ++ "/" ++ d.filename) ∉
        ds.map (fun x => outDir ++ "/" ++ x.filename) ∧
        (ds.map (fun x => outDir ++ "/" ++ x.filename)).Nodup := by
      simpa using hnd
    cases hg : stageRes (b d.idx) with
    | none =>
      simp [runDelta, hg] at hp
    | some img =>
      simp only [runDelta, hg] at hp ⊢
      rcases List.mem_cons.mp hp with h | h
      · obtain ⟨hinj1, hinj2⟩ := Entry.produced.inj h
        refine ⟨d, by simp, hinj1.symm, hinj2, img, by rw [hinj1]; exact hg, ?_⟩
        subst hinj2
        rw [runDelta_disk_untouched sys base b outDir ds (some img) _ _
          (fun d' hd' he => hnd'.1
            (by rw [he]; exact List.mem_map.mpr ⟨d', hd', rfl⟩))]
        rw [callGemini_snd_of_some (b d.idx) _ dk img hg]
        exact diskGet_diskSet_self dk _ _
      · obtain ⟨d', hd', h1, h2, img', h3, h4⟩ := ih (some img) _ hnd'.2 i p h
        exact ⟨d', by simp [hd'], h1, h2, img', h3, h4⟩

theorem runDelta_disk_cases {Img : Type} (sys : String) (base : Img)
    (b : Nat → StageBehavior Img) (outDir : String) (ds : List StageDef) :
    ∀ (prev : Option Img) (dk : Disk Img) (p : String) (fs : FileState Img),
      diskGet (runDelta sys base b outDir ds prev dk).disk p = some fs →
      diskGet dk p = some fs ∨
        (∃ i, Entry.produced i p ∈ (runDelta sys base b outDir ds prev dk).log ∧
          ∃ img, fs = .full img) ∨
        (∃ k, Entry.failed k ∈ (runDelta sys base b outDir ds prev dk).log ∧
          fs = .corrupt ∧
          ∃ d' ∈ ds, d'.idx = k ∧ p = outDir ++ "/" ++ d'.filename) := by
  induction ds with
  | nil => intro prev dk p fs h; simp [runDelta] at h; exact Or.inl h
  | cons d ds ih =>
    intro prev dk p fs h
    cases hg : stageRes (b d.idx) with
    | none =>
      simp only [runDelta, hg] at h ⊢
      rcases callGemini_snd_cases (b d.idx) (outDir ++ "/" ++ d.filename) dk
        with hc | ⟨img, hres, _⟩ | ⟨_, hc⟩
      · rw [hc] at h
        exact Or.inl h
      · rw [hres] at hg
        exact absurd hg (by simp)
      · rw [hc] at h
        by_cases hp : p = outDir ++ "/" ++ d.filename
        · subst hp
          rw [diskGet_diskSet_self] at h
          refine Or.inr (Or.inr ⟨d.idx, by simp, ?_, d, by simp⟩)
          simpa using h.symm
        · rw [diskGet_diskSet_ne _ _ _ _ hp] at h
          exact Or.inl h
    | some img =>
      simp only [runDelta, hg] at h ⊢
      rcases ih (some img) _ p fs h with hc | ⟨i, hi, himg⟩ | ⟨k, hk, hfs, hd'⟩
      · rw [callGemini_snd_of_some (b d.idx) _ dk img hg] at hc
        by_cases hp : p = outDir ++ "/" ++ d.filename
        · subst hp
          rw [diskGet_diskSet_self] at hc
          refine Or.inr (Or.inl ⟨d.idx, by simp, img, ?_⟩)
          simpa using hc.symm
        · rw [diskGet_diskSet_ne _ _ _ _ hp] at hc
          exact Or.inl hc
      · exact Or.inr (Or.inl ⟨i, by simp [hi], himg⟩)
      · obtain ⟨d', hmem, hidx, hpath⟩ := hd'
        exact Or.inr (Or.inr ⟨k, by simp [hk], hfs, d', by simp [hmem], hidx, hpath⟩)

theorem runDelta_refs {Img : Type} (sys : String) (base : Img)
    (b : Nat → StageBehavior Img) (outDir : String) (ds : List StageDef) :
    ∀ (j : Nat) (prev : Option Img) (dk : Disk Img),
      ds.map (·.idx) = List.range' j ds.length →
      1 ≤ j →
      ((j = 1 ∧ prev = none) ∨
        (2 ≤ j ∧ ∃ img, prev = some img ∧ stageRes (b (j - 1)) = some img)) →
      ∀ ev ∈ (runDelta sys base b outDir ds prev dk).events,
        ev.refs.head? = some base ∧
        (ev.stage = 1 → ev.refs = [base]) ∧
        (2 ≤ ev.stage →
          ∃ img, stageRes (b (ev.stage - 1)) = some img ∧
            ev.refs = [base, img]) := by
  induction ds with
  | nil => intro j prev dk _ _ _ ev hev; simp [runDelta] at hev
  | cons d ds ih =>
    intro j prev dk hr hj hprev ev hev
    have hd : d.idx = j ∧ ds.map (·.idx) = List.range' (j + 1) ds.length := by
      rw [List.length_cons, List.range'_succ] at hr
      simpa using hr
    obtain ⟨hdj, hds⟩ := hd
    subst hdj
    rcases hprev with ⟨hj1, hpn⟩ | ⟨hj2, img0, hps, hres0⟩
    · subst hpn
      cases hg : stageRes (b d.idx) with
      | none =>
        simp only [runDelta, hg] at hev
        simp only [List.mem_singleton] at hev
        subst hev
        refine ⟨by simp, by simp, ?_⟩
        intro h2
        simp at h2
        omega
      | some img =>
        simp only [runDelta, hg] at hev
        rcases List.mem_cons.mp hev with h | h
        · subst h
          refine ⟨by simp, by simp, ?_⟩
          intro h2
          simp at h2
          omega
        · exact ih (d.idx + 1) (some img) _ hds (by omega)
            (Or.inr ⟨by omega, img, rfl, by simpa using hg⟩) ev h
    · subst hps
      cases hg : stageRes (b d.idx) with
      | none =>
        simp only [runDelta, hg] at hev
        simp only [List.mem_singleton] at hev
        subst hev
        refine ⟨by simp, ?_, ?_⟩
        · intro h1
          simp at h1
          omega
        · intro _
          exact ⟨img0, by simpa using hres0, by simp⟩
      | some img =>
        simp only [runDelta, hg] at hev
        rcases List.mem_cons.mp hev with h | h
        · subst h
          refine ⟨by simp, ?_, ?_⟩
          · intro h1
            simp at h1
            omega
          · intro _
            exact ⟨img0, by simpa using hres0, by simp⟩
        · exact ih (d.idx + 1) (some img) _ hds (by omega)
            (Or.inr ⟨by omega, img, rfl, by simpa using hg⟩) ev h

/-! ### Facts about the concrete stage list -/

theorem stageDefs_idx_eq (sp : StepPrompts) :
    (stageDefs sp).map (·.idx) = List.range' 1 (stageDefs sp).length := rfl

theorem stageDefs_paths_nodup (outDir : String) (sp : StepPrompts) :
    ((stageDefs sp).map (fun x => outDir ++ "/" ++ x.filename)).Nodup := by
  have hinj : Function.Injective (fun fn => outDir ++ "/" ++ fn) := by
    intro a b hab
    exact string_append_cancel_left _ _ _ hab
  have hfn : (["step1_light_sketch.jpg", "step2_first_wash.jpg",
      "step3_second_wash.jpg", "step4_medium_tones.jpg", "step5_shadows.jpg",
      "step6_details.jpg", "step7_darkest_values.jpg",
      "step8_finished_watercolor.jpg"] : List String).Nodup := by decide
  have hmm : (stageDefs sp).map (fun x => outDir ++ "/" ++ x.filename) =
      ((stageDefs sp).map (·.filename)).map (fun fn => outDir ++ "/" ++ fn) := by
    simp [List.map_map]
  rw [hmm]
  exact List.Nodup.map hinj hfn

theorem stageRes_eq_none_iff {Img : Type} (beh : StageBehavior Img) :
    stageRes beh = none ↔
      (beh.1 = .raises ∨ beh.1 = .noImage ∨ beh.2 ≠ .ok) := by
  rcases beh with ⟨g, sv⟩
  cases g <;> cases sv <;> simp [stageRes]

/-! ### Sample inputs used by the concrete evaluations -/

/-- A concrete set of stage prompts. -/
def samplePrompts : StepPrompts := ⟨"p1", "p2", "p3", "p4", "p5", "p6", "p7", "p8"⟩

/-- A world in which every stage generates an image and every save
succeeds. -/
def behAllOk : Nat → StageBehavior Nat := fun k => (.image (10 * k), .ok)

/-- A world in which every generation call raises a transport error. -/
def behRaisesAll : Nat → StageBehavior Nat := fun _ => (.raises, .ok)

/-- A world in which stages 1 and 2 succeed and stage 3's response has no
image payload. -/
def behNoImageAt3 : Nat → StageBehavior Nat :=
  fun k => if k < 3 then (.image (10 * k), .ok) else (.noImage, .ok)

/-- A world in which stage 1 generates an image but the save fails after
the file was partly written. -/
def behSaveFail1 : Nat → StageBehavior Nat := fun _ => (.image 7, .failAfterWrite)

/-- A set of stage prompts whose first entry is the single letter b,
used to exhibit the prompt-separator counterexample. -/
def promptOnlyB : StepPrompts := ⟨"b", "b", "b", "b", "b", "b", "b", "b"⟩

/-! ### The claims -/

/-- C1.  The claim says a run's status is COMPLETE iff the log has
exactly 8 `Produced` entries, so an aborted run must not be reported as
completed.  The code violates this: on a stage failure the generated
script calls bare `exit()`, which terminates the process with status 0,
and the Streamlit caller treats return code 0 as success.  Concretely,
in a world where stage 1's generation call raises, the run's log is
`[Failed 1]` with zero `Produced` entries, yet the caller's completion
check is true. -/
theorem c1_aborted_run_reported_completed :
    (runScript (LoadResult.ok (0 : Nat)) "sys" samplePrompts behRaisesAll
        "out").log = [Entry.failed 1] ∧
    producedCount (runScript (LoadResult.ok (0 : Nat)) "sys" samplePrompts
        behRaisesAll "out").log = 0 ∧
    reportedCompleted (runScript (LoadResult.ok (0 : Nat)) "sys"
        samplePrompts behRaisesAll "out") = true := by
  refine ⟨by decide, by decide, by decide⟩

/-- C2.  Fail-fast: in every run whose log contains `Failed k`, every
log entry and every generation call is for a stage index at most `k`,
and the artifact path of every stage with index greater than `k` is
absent from the output directory. -/
theorem c2_fail_fast {Img : Type} (sys outDir : String) (sp : StepPrompts)
    (b : Nat → StageBehavior Img) (base : Img) (k : Nat)
    (hk : Entry.failed k ∈ (runScript (.ok base) sys sp b outDir).log) :
    (∀ e ∈ (runScript (.ok base) sys sp b outDir).log, entryStage e ≤ k) ∧
    (∀ ev ∈ (runScript (.ok base) sys sp b outDir).events, ev.stage ≤ k) ∧
    (∀ d ∈ stageDefs sp, k < d.idx →
      diskGet (runScript (.ok base) sys sp b outDir).disk
        (outDir ++ "/" ++ d.filename) = none) := by
  simp only [runScript_ok_eq] at hk ⊢
  obtain ⟨h1, h2⟩ := runDelta_fail_bound sys base b outDir (stageDefs sp) 1
    none [] k (stageDefs_idx_eq sp) hk
  refine ⟨h1, h2, ?_⟩
  intro d hd hkd
  rw [runDelta_fail_disk sys base b outDir (stageDefs sp) 1 none [] k
    (stageDefs_idx_eq sp) (stageDefs_paths_nodup outDir sp) hk d hd hkd]
  rfl

/-- Witness for C2 at a concrete input: stage 3's response has no image
payload, so the log contains `Failed 3` and the fail-fast bounds hold. -/
theorem c2_fail_fast_witness :
    Entry.failed 3 ∈ (runScript (LoadResult.ok (0 : Nat)) "s" samplePrompts
        behNoImageAt3 "o").log ∧
    ((∀ e ∈ (runScript (LoadResult.ok (0 : Nat)) "s" samplePrompts
        behNoImageAt3 "o").log, entryStage e ≤ 3) ∧
     (∀ ev ∈ (runScript (LoadResult.ok (0 : Nat)) "s" samplePrompts
        behNoImageAt3 "o").events, ev.stage ≤ 3) ∧
     (∀ d ∈ stageDefs samplePrompts, 3 < d.idx →
        diskGet (runScript (LoadResult.ok (0 : Nat)) "s" samplePrompts
          behNoImageAt3 "o").disk ("o" ++ "/" ++ d.filename) = none)) :=
  ⟨by decide, c2_fail_fast "s" "o" samplePrompts behNoImageAt3 0 3 (by decide)⟩

/-- C3.  Context threading: in a successful run (8 `Produced` entries),
every generation call's reference list starts with the original image;
stage 1's reference list is exactly `[original]`, and stage i's for
i at least 2 is exactly `[original, output of stage i-1]`. -/
theorem c3_reference_sets {Img : Type} (sys outDir : String)
    (sp : StepPrompts) (b : Nat → StageBehavior Img) (base : Img)
    (hc : producedCount (runScript (.ok base) sys sp b outDir).log = 8) :
    ∀ ev ∈ (runScript (.ok base) sys sp b outDir).events,
      ev.refs.head? = some base ∧
      (ev.stage = 1 → ev.refs = [base]) ∧
      (2 ≤ ev.stage → ∃ img, stageRes (b (ev.stage - 1)) = some img ∧
        ev.refs = [base, img]) := by
  intro ev hev
  simp only [runScript_ok_eq] at hev
  exact runDelta_refs sys base b outDir (stageDefs sp) 1 none []
    (stageDefs_idx_eq sp) (by omega) (Or.inl ⟨rfl, rfl⟩) ev hev

/-- Witness for C3 at a concrete input: an all-success world. -/
theorem c3_reference_sets_witness :
    producedCount (runScript (LoadResult.ok (0 : Nat)) "s" samplePrompts
        behAllOk "o").log = 8 ∧
    (∀ ev ∈ (runScript (LoadResult.ok (0 : Nat)) "s" samplePrompts
        behAllOk "o").events,
      ev.refs.head? = some 0 ∧
      (ev.stage = 1 → ev.refs = [0]) ∧
      (2 ≤ ev.stage → ∃ img, stageRes (behAllOk (ev.stage - 1)) = some img ∧
        ev.refs = [0, img])) :=
  ⟨by decide, c3_reference_sets "s" "o" samplePrompts behAllOk 0 (by decide)⟩

/-- C4 counterexample.  The claim that the effective prompt is the plain
concatenation of the system prompt and the stage prompt is false: with
system prompt "a" and stage-1 prompt "b" the generated script builds
`f"{system_prompt}\n\n{user_prompt}"`, i.e. the recorded call's prompt is
"a\n\nb", not "a" ++ "b". -/
theorem c4_plain_concat_counterexample :
    ¬ (∀ ev ∈ (runScript (LoadResult.ok (0 : Nat)) "a" promptOnlyB
        behRaisesAll "o").events, ev.prompt = "a" ++ promptOnlyB.step1) := by
  decide

/-- C4 (amended).  The effective prompt of every generation call is the
system prompt, followed by a two-newline separator, followed by that
stage's prompt template, with the system prompt always first and neither
text truncated or escaped. -/
theorem c4_prompt_concatenation {Img : Type} (sys outDir : String)
    (sp : StepPrompts) (b : Nat → StageBehavior Img) (base : Img) :
    ∀ ev ∈ (runScript (.ok base) sys sp b outDir).events,
      ∃ d ∈ stageDefs sp, ev.stage = d.idx ∧
        ev.prompt = sys ++ "\n\n" ++ d.prompt ∧
        ev.prompt = sys ++ ("\n\n" ++ d.prompt) := by
  intro ev hev
  simp only [runScript_ok_eq] at hev
  obtain ⟨d, hd, h1, h2⟩ := runDelta_events_shape sys base b outDir
    (stageDefs sp) none [] ev hev
  exact ⟨d, hd, h1, h2, by rw [h2, String.append_assoc]⟩

/-- Witness for the amended C4 at a concrete input. -/
theorem c4_prompt_concatenation_witness :
    (⟨1, "a\n\nb", [0]⟩ : Event Nat) ∈ (runScript (LoadResult.ok (0 : Nat))
        "a" promptOnlyB behRaisesAll "o").events ∧
    (∃ d ∈ stageDefs promptOnlyB,
      (⟨1, "a\n\nb", [0]⟩ : Event Nat).stage = d.idx ∧
      (⟨1, "a\n\nb", [0]⟩ : Event Nat).prompt = "a" ++ "\n\n" ++ d.prompt ∧
      (⟨1, "a\n\nb", [0]⟩ : Event Nat).prompt = "a" ++ ("\n\n" ++ d.prompt)) :=
  ⟨by decide, c4_prompt_concatenation "a" "o" promptOnlyB behRaisesAll 0
    ⟨1, "a\n\nb", [0]⟩ (by decide)⟩

/-- C5.  Deterministic naming: the eight output filenames are fixed
canonical names in stage order, independent of the prompt content, and
every `Produced` entry's path is the output root joined with the
canonical filename of its stage. -/
theorem c5_deterministic_names {Img : Type} (sys outDir : String)
    (sp sp' : StepPrompts) (b : Nat → StageBehavior Img) (base : Img) :
    (stageDefs sp).map (·.filename) = (stageDefs sp').map (·.filename) ∧
    (stageDefs sp).map (·.filename) =
      ["step1_light_sketch.jpg", "step2_first_wash.jpg",
       "step3_second_wash.jpg", "step4_medium_tones.jpg",
       "step5_shadows.jpg", "step6_details.jpg",
       "step7_darkest_values.jpg", "step8_finished_watercolor.jpg"] ∧
    ∀ i p, Entry.produced i p ∈ (runScript (.ok base) sys sp b outDir).log →
      ∃ d ∈ stageDefs sp, d.idx = i ∧ p = outDir ++ "/" ++ d.filename := by
  refine ⟨rfl, rfl, ?_⟩
  intro i p hp
  simp only [runScript_ok_eq] at hp
  obtain ⟨d, hd, h1, h2, _⟩ := runDelta_produced sys base b outDir
    (stageDefs sp) none [] (stageDefs_paths_nodup outDir sp) i p hp
  exact ⟨d, hd, h1, h2⟩

/-- Witness for C5 at a concrete input. -/
theorem c5_deterministic_names_witness :
    Entry.produced 1 "o/step1_light_sketch.jpg" ∈
      (runScript (LoadResult.ok (0 : Nat)) "s" samplePrompts behAllOk
        "o").log ∧
    (∃ d ∈ stageDefs samplePrompts, d.idx = 1 ∧
      "o/step1_light_sketch.jpg" = "o" ++ "/" ++ d.filename) :=
  ⟨by decide,
   (c5_deterministic_names "s" "o" samplePrompts samplePrompts behAllOk 0).2.2
     1 "o/step1_light_sketch.jpg" (by decide)⟩

/-- C6.  Any failure of a stage attempt — a raised generation call, a
response with no image payload, or a failing save — is converted into a
`Failed` outcome at that stage and halts the run there: no later stage
appears in the log or in the call trace.  (`runScript` is a total
function of the world's behaviour, so no per-stage failure escapes the
loop.) -/
theorem c6_failure_halts {Img : Type} (sys outDir : String)
    (sp : StepPrompts) (b : Nat → StageBehavior Img) (base : Img) (k : Nat)
    (hev : ∃ ev ∈ (runScript (.ok base) sys sp b outDir).events,
      ev.stage = k)
    (hfail : (b k).1 = GenOutcome.raises ∨ (b k).1 = GenOutcome.noImage ∨
      (b k).2 ≠ SaveOutcome.ok) :
    Entry.failed k ∈ (runScript (.ok base) sys sp b outDir).log ∧
    (∀ e ∈ (runScript (.ok base) sys sp b outDir).log, entryStage e ≤ k) ∧
    (∀ ev ∈ (runScript (.ok base) sys sp b outDir).events, ev.stage ≤ k) := by
  have hres : stageRes (b k) = none := (stageRes_eq_none_iff (b k)).mpr hfail
  simp only [runScript_ok_eq] at hev ⊢
  have hk := runDelta_fail_in sys base b outDir (stageDefs sp) none [] k
    hres hev
  obtain ⟨h1, h2⟩ := runDelta_fail_bound sys base b outDir (stageDefs sp) 1
    none [] k (stageDefs_idx_eq sp) hk
  exact ⟨hk, h1, h2⟩

/-- Witness for C6 at a concrete input: stage 3 returns no image. -/
theorem c6_failure_halts_witness :
    (∃ ev ∈ (runScript (LoadResult.ok (0 : Nat)) "s" samplePrompts
        behNoImageAt3 "o").events, ev.stage = 3) ∧
    ((behNoImageAt3 3).1 = GenOutcome.raises ∨
      (behNoImageAt3 3).1 = GenOutcome.noImage ∨
      (behNoImageAt3 3).2 ≠ SaveOutcome.ok) ∧
    (Entry.failed 3 ∈ (runScript (LoadResult.ok (0 : Nat)) "s" samplePrompts
        behNoImageAt3 "o").log ∧
     (∀ e ∈ (runScript (LoadResult.ok (0 : Nat)) "s" samplePrompts
        behNoImageAt3 "o").log, entryStage e ≤ 3) ∧
     (∀ ev ∈ (runScript (LoadResult.ok (0 : Nat)) "s" samplePrompts
        behNoImageAt3 "o").events, ev.stage ≤ 3)) :=
  ⟨by decide, by decide,
   c6_failure_halts "s" "o" samplePrompts behNoImageAt3 0 3 (by decide)
     (by decide)⟩

/-- C7.  A malformed (undecodable) original image makes `Image.open`
raise before stage 1: the run never starts, no generation call is made,
no stage log entry exists, no file is written, and the caller's
completion check is false (the uncaught exception exits with a nonzero
status, so the caller is shown the invalid-input failure rather than a
stage failure or a completed run). -/
theorem c7_malformed_image {Img : Type} (sys : String) (sp : StepPrompts)
    (b : Nat → StageBehavior Img) (outDir : String) :
    runScript (.malformed : LoadResult Img) sys sp b outDir =
      ⟨[], [], [], 1⟩ ∧
    reportedCompleted (runScript (.malformed : LoadResult Img) sys sp b
      outDir) = false :=
  ⟨rfl, rfl⟩

/-- C8.  Exactly one generation call per stage per run: in every run the
sequence of called stage indices is `1, 2, ..., m` for some `m ≤ 8`,
each index occurring exactly once — an attempted stage is called once
and a failed call is never retried. -/
theorem c8_one_call_per_stage {Img : Type} (load : LoadResult Img)
    (sys : String) (sp : StepPrompts) (b : Nat → StageBehavior Img)
    (outDir : String) :
    ∃ m ≤ 8,
      (runScript load sys sp b outDir).events.map (·.stage) =
        List.range' 1 m ∧
      ∀ k, ((runScript load sys sp b outDir).events.map (·.stage)).count k
        ≤ 1 := by
  cases load with
  | notFound => exact ⟨0, by omega, rfl, fun k => by simp [runScript]⟩
  | malformed => exact ⟨0, by omega, rfl, fun k => by simp [runScript]⟩
  | ok base =>
    obtain ⟨m, hm, h1, h2⟩ := runDelta_range sys base b outDir
      (stageDefs sp) 1 none [] (stageDefs_idx_eq sp)
    refine ⟨m, by simpa using hm, ?_, ?_⟩
    · simpa [runScript_ok_eq] using h1
    · intro k
      have hnd : (((runScript (.ok base) sys sp b outDir).events.map
          (·.stage))).Nodup := by
        simp only [runScript_ok_eq]
        rw [h1]
        exact List.nodup_range' 1 m
      exact List.nodup_iff_count_le_one.mp hnd k

/-- C9 counterexample.  The claim that files on disk correspond exactly
to `Produced` entries is false: `generated_image.save` writes straight
to the final path, so in a world where stage 1's save raises midway the
run aborts with log `[Failed 1]` while a truncated file sits at stage
1's canonical path. -/
theorem c9_exact_correspondence_counterexample :
    diskGet (runScript (LoadResult.ok (0 : Nat)) "s" samplePrompts
        behSaveFail1 "o").disk "o/step1_light_sketch.jpg" =
      some FileState.corrupt ∧
    ¬ (∀ (p : String) (fs : FileState Nat),
        diskGet (runScript (LoadResult.ok (0 : Nat)) "s" samplePrompts
          behSaveFail1 "o").disk p = some fs →
        ∃ i, Entry.produced i p ∈ (runScript (LoadResult.ok (0 : Nat)) "s"
          samplePrompts behSaveFail1 "o").log) := by
  refine ⟨by decide, ?_⟩
  intro h
  obtain ⟨i, hi⟩ := h "o/step1_light_sketch.jpg" FileState.corrupt (by decide)
  have hlog : (runScript (LoadResult.ok (0 : Nat)) "s" samplePrompts
      behSaveFail1 "o").log = [Entry.failed 1] := by decide
  rw [hlog] at hi
  simp at hi

/-- C9 (amended).  Every `Produced` entry has the full decoded image on
disk at its path, and every file on disk is either the full image of a
`Produced` stage or the truncated remains of the one failing stage's
save at that stage's canonical path; stages beyond the failure have no
file.  (The write is not atomic: a failed save may leave a partial file
for the failing stage itself.) -/
theorem c9_disk_log_correspondence {Img : Type} (sys outDir : String)
    (sp : StepPrompts) (b : Nat → StageBehavior Img) (base : Img) :
    (∀ i p, Entry.produced i p ∈
        (runScript (.ok base) sys sp b outDir).log →
      ∃ img, stageRes (b i) = some img ∧
        diskGet (runScript (.ok base) sys sp b outDir).disk p =
          some (.full img)) ∧
    (∀ p fs, diskGet (runScript (.ok base) sys sp b outDir).disk p =
        some fs →
      (∃ i, Entry.produced i p ∈ (runScript (.ok base) sys sp b outDir).log ∧
        ∃ img, fs = .full img ∧ stageRes (b i) = some img) ∨
      (∃ k, Entry.failed k ∈ (runScript (.ok base) sys sp b outDir).log ∧
        fs = .corrupt ∧ ∃ d ∈ stageDefs sp, d.idx = k ∧
          p = outDir ++ "/" ++ d.filename)) := by
  simp only [runScript_ok_eq]
  have part1 : ∀ i p, Entry.produced i p ∈
      (runDelta sys base b outDir (stageDefs sp) none []).log →
      ∃ img, stageRes (b i) = some img ∧
        diskGet (runDelta sys base b outDir (stageDefs sp) none []).disk p =
          some (.full img) := by
    intro i p hp
    obtain ⟨d, hd, h1, h2, img, h3, h4⟩ := runDelta_produced sys base b
      outDir (stageDefs sp) none [] (stageDefs_paths_nodup outDir sp) i p hp
    exact ⟨img, h3, h4⟩
  refine ⟨part1, ?_⟩
  intro p fs h
  rcases runDelta_disk_cases sys base b outDir (stageDefs sp) none [] p fs h
    with h0 | ⟨i, hi, img, hfs⟩ | ⟨k, hk, hfs, d, hd, hidx, hpath⟩
  · simp [diskGet] at h0
  · obtain ⟨img0, hres, hdisk⟩ := part1 i p hi
    refine Or.inl ⟨i, hi, img0, ?_, hres⟩
    have := hdisk.symm.trans h
    simpa using this.symm
  · exact Or.inr ⟨k, hk, hfs, d, hd, hidx, hpath⟩

/-- Witness for the amended C9 at a concrete input: an all-success
world, checked at stage 3's path. -/
theorem c9_disk_log_correspondence_witness :
    diskGet (runScript (LoadResult.ok (0 : Nat)) "s" samplePrompts behAllOk
        "o").disk "o/step3_second_wash.jpg" = some (FileState.full 30) ∧
    ((∃ i, Entry.produced i "o/step3_second_wash.jpg" ∈
        (runScript (LoadResult.ok (0 : Nat)) "s" samplePrompts behAllOk
          "o").log ∧
      ∃ img, (FileState.full 30 : FileState Nat) = .full img ∧
        stageRes (behAllOk i) = some img) ∨
     (∃ k, Entry.failed k ∈ (runScript (LoadResult.ok (0 : Nat)) "s"
        samplePrompts behAllOk "o").log ∧
      (FileState.full 30 : FileState Nat) = .corrupt ∧
      ∃ d ∈ stageDefs samplePrompts, d.idx = k ∧
        "o/step3_second_wash.jpg" = "o" ++ "/" ++ d.filename)) :=
  ⟨by decide,
   (c9_disk_log_correspondence "s" "o" samplePrompts behAllOk 0).2
     "o/step3_second_wash.jpg" (FileState.full 30) (by decide)⟩

/-- C10.  The script text returned by `create_modified_script` contains
the caller's API key verbatim in plaintext, and the generate-button
handler writes that text to a file on disk (effect index 1) strictly
before executing it (effect index 2). -/
theorem c10_api_key_plaintext (api_key uploaded system_prompt temp_dir :
    String) (sp : StepPrompts) :
    ∃ pre post : String,
      create_modified_script api_key (temp_dir ++ "/input_image.jpg")
        system_prompt sp (temp_dir ++ "/output") = pre ++ api_key ++ post ∧
      (mainGenerateEffects api_key uploaded system_prompt sp
        temp_dir).get? 1 =
        some (.writeFile (temp_dir ++ "/watercolor_script.py")
          (create_modified_script api_key (temp_dir ++ "/input_image.jpg")
            system_prompt sp (temp_dir ++ "/output"))) ∧
      (mainGenerateEffects api_key uploaded system_prompt sp
        temp_dir).get? 2 =
        some (.execScript (temp_dir ++ "/watercolor_script.py")) := by
  refine ⟨scChunk0,
    scChunk1 ++ (temp_dir ++ "/input_image.jpg") ++ scChunk2
      ++ (temp_dir ++ "/output") ++ scChunk3 ++ system_prompt ++ scChunk4
      ++ sp.step1 ++ scChunk5 ++ sp.step2 ++ scChunk6 ++ sp.step3
      ++ scChunk7 ++ sp.step4 ++ scChunk8 ++ sp.step5 ++ scChunk9
      ++ sp.step6 ++ scChunk10 ++ sp.step7 ++ scChunk11 ++ sp.step8
      ++ scChunk12, ?_, rfl, rfl⟩
  simp [create_modified_script, String.append_assoc]
